import Mathlib

/-!
Shallow embedding of the `jsonrpc` Go package (client engine, server engine,
middleware chain composer, error model) and proofs of its specified
properties.

Conventions of the embedding:
* Go `uint64` is `Nat` with an explicit `% 2^64` where the counter is
  incremented.
* JSON values exchanged on the wire are modelled by the inductive `Json`
  (integers stand in for JSON numbers; the code under verification never
  inspects fractional parts).  A Go `any` produced by JSON decoding is
  modelled as a `Json` value, with `Json.null` playing the role of Go `nil`.
* Go maps are association lists; indexing with a missing key yields the Go
  zero value, exactly as `m[k]` does in Go.
* Fallible Go calls (`(T, error)`) are `Except String T`; a Go panic (index
  out of range) is modelled by `Option.none` at the outermost level.
* Hooks whose only effect is on an execution context or response writer that
  the surrounding code discards (`ClientAfterFunc` results, server `after`
  hooks) have no observable effect in the pure model and are elided.
-/

namespace Jsonrpc

/-- Model of a JSON value (wire-level data).  JSON numbers are modelled as
integers; none of the embedded code inspects fractional parts. -/
inductive Json : Type where
  | null : Json
  | bool : Bool → Json
  | num : Int → Json
  | str : String → Json
  | arr : List Json → Json
  | obj : List (String × Json) → Json

/-- Field lookup in a decoded JSON object (first binding wins; the encoder in
this development never produces duplicate keys). -/
def lookupField (fields : List (String × Json)) (name : String) : Option Json :=
  match fields with
  | [] => none
  | (k, v) :: rest => if k = name then some v else lookupField rest name

/-- Whether a JSON value is an array, i.e. whether its serialized form begins
with `[` — the test `bytes.HasPrefix(b, []byte("["))` performed by
`jsonRPCRequestData.UnmarshalJSON`. -/
def Json.isArr : Json → Bool
  | .arr _ => true
  | _ => false

/-- Whether a JSON value is `null` (Go `nil` under the `any` modelling). -/
def Json.isNull : Json → Bool
  | .null => true
  | _ => false

/-! ## Middleware chain composer (`helpers.go`) -/

/-- `middlewareChain` from `helpers.go`, generic in the endpoint type `E`
(the Go source is monomorphic in its `Endpoint` func type; the body is
identical).  The Go loop `for i := len(others)-1; i >= 0; i--` that rewraps
`next` is a left fold over the reversed tail. -/
def middlewareChain {E : Type} (middlewares : List (E → E)) : E → E :=
  fun next =>
    match middlewares with
    | [] => next
    | outer :: others =>
      outer (others.reverse.foldl (fun acc m => m acc) next)

/-! ## Error model (`error.go`) -/

/-- The exported `Error` type of `error.go`: an application/server error with
numeric code, message and optional data. -/
structure Error where
  code : Int
  message : String
  data : Json

/-- `(*Error).Code`. -/
def Error.Code (e : Error) : Int := e.code

/-- `(*Error).Data`. -/
def Error.Data (e : Error) : Json := e.data

/-- `(*Error).Error` (the Go `error` interface method): returns the message. -/
def Error.ErrorString (e : Error) : String := e.message

/-! ## Client engine data model (`client.go`, client part) -/

/-- Wire request assembled by the client (`clientReq`); `Version` is always
`"2.0"` in the code. -/
structure clientReq where
  ID : Nat
  Version : String
  Method : String
  Params : Json

/-- Error member of a decoded response envelope (`clientError`). -/
structure clientError where
  Code : Int
  Message : String
  Data : Json

/-- Decoded response envelope (`clientResp`).  `Result` is a
`json.RawMessage`: `none` models the nil raw message of an absent field,
`some v` a present field whose raw bytes decode to `v`. -/
structure clientResp where
  ID : Nat
  Error : Option clientError
  Result : Option Json

/-- A typed request (the `Requester` interface): produces `(method, params)`
via `MakeRequest` and converts raw result bytes via `MakeResult`. -/
structure Requester (α : Type) where
  method : String
  params : Json
  makeResult : Option Json → Except String α

/-- The client's `uint64` auto-increment: `atomic.AddUint64(&c.incrementID, 1)`
returns the **incremented** value. -/
def autoIncrementID (counter : Nat) : Nat :=
  (counter + 1) % 2 ^ 64

/-- Recursive worker of the ID-assignment loop of `Client.doRequests`: each
request, in order, receives `autoIncrementID` of the running counter; the pair
`(id, original index)` is recorded in `idsIndex`.  Returns
`(final counter, wire requests, idsIndex)`. -/
def assignIDsFrom {α : Type} (counter idx : Nat) :
    List (Requester α) → Nat × List clientReq × List (Nat × Nat)
  | [] => (counter, [], [])
  | r :: rest =>
    let id := autoIncrementID counter
    let (c', reqs, idsIdx) := assignIDsFrom id (idx + 1) rest
    (c', ⟨id, "2.0", r.method, r.params⟩ :: reqs, (id, idx) :: idsIdx)

/-- ID assignment of `Client.doRequests`, starting from the counter value `0`
that `doRequests` resets the client to. -/
def assignIDs {α : Type} (requests : List (Requester α)) :
    Nat × List clientReq × List (Nat × Nat) :=
  assignIDsFrom 0 0 requests

/-- The client state that `doRequests` touches: the shared `incrementID`
counter. -/
structure Client where
  incrementID : Nat

/-- The pure content of `Client.doRequests`: reset the counter to zero, then
assign IDs and build the correlation table (the HTTP POST itself is the
external transport collaborator).  The returned client carries the counter
left by the assignment, which started from the reset value `0` whatever
`c.incrementID` held. -/
def doRequests {α : Type} (_c : Client) (requests : List (Requester α)) :
    Client × List clientReq × List (Nat × Nat) :=
  ({ incrementID := (assignIDs requests).1 },
   (assignIDs requests).2.1,
   (assignIDs requests).2.2)

/-- Go map indexing `idsIndex[id]`: a missing key yields the zero value `0`. -/
def goMapLookup (m : List (Nat × Nat)) (k : Nat) : Nat :=
  match m.find? (fun p => p.fst = k) with
  | some p => p.snd
  | none => 0

/-- The batch result container returned by `Execute`/`ExecuteWithContext`:
`results` slots start as Go `nil` (`none`) and receive either a typed `*Error`
or an application result. -/
structure BatchResult (α : Type) where
  results : List (Option (Error ⊕ α))

/-- `(*BatchResult).Len`. -/
def BatchResult.Len {α : Type} (r : BatchResult α) : Nat := r.results.length

/-- `(*BatchResult).At` (panics on an out-of-range index in Go; modelled
totally on in-range indices via `getD`). -/
def BatchResult.At {α : Type} (r : BatchResult α) (i : Nat) : Option (Error ⊕ α) :=
  r.results.getD i none

/-- One iteration body of the correlation loop of `ExecuteWithContext`,
hoisted out for the statements: how a single response envelope is converted
for the slot it lands in. -/
def processResp {α : Type} (req : Requester α) (resp : clientResp) :
    Except String (Error ⊕ α) :=
  match resp.Error with
  | some e => .ok (.inl ⟨e.Code, e.Message, e.Data⟩)
  | none => (req.makeResult resp.Result).map .inr

/-- The decode+correlate loop of `Client.ExecuteWithContext` (lines 186–212):
for each response envelope, `i := idsIndex[response.ID]` (Go zero value on a
missing key), then either store a typed `*Error` or run `MakeResult` and store
its value; a `MakeResult` failure aborts the whole call.  `none` models the
panic on an out-of-range slot index. -/
def executeLoop {α : Type} (requests : List (Requester α))
    (idsIndex : List (Nat × Nat)) :
    List clientResp → List (Option (Error ⊕ α)) →
    Option (Except String (List (Option (Error ⊕ α))))
  | [], slots => some (.ok slots)
  | resp :: rest, slots =>
    let i := goMapLookup idsIndex resp.ID
    match resp.Error with
    | some e =>
      if i < slots.length then
        executeLoop requests idsIndex rest
          (slots.set i (some (.inl ⟨e.Code, e.Message, e.Data⟩)))
      else
        none
    | none =>
      match requests[i]? with
      | none => none
      | some req =>
        match req.makeResult resp.Result with
        | .error msg => some (.error msg)
        | .ok v => executeLoop requests idsIndex rest (slots.set i (some (.inr v)))

/-- `Client.ExecuteWithContext` after the transport call: `wire` is the list
of response envelopes decoded from the body.  Builds the correlation table via
`doRequests`, allocates `len(requests)` nil slots, and runs the correlation
loop. -/
def executeWithContext {α : Type} (c : Client) (requests : List (Requester α))
    (wire : List clientResp) : Option (Except String (BatchResult α)) :=
  (executeLoop requests (doRequests c requests).2.2 wire
    (List.replicate requests.length none)).map (Except.map BatchResult.mk)

/-! ## Server engine data model (`client.go`, server part) -/

/-- Standard JSON-RPC error codes declared by the package. -/
def jsonRPCParseError : Int := -32700

/-- `jsonRPCInvalidRequestError` (reserved, unused beyond definition). -/
def jsonRPCInvalidRequestError : Int := -32600

/-- `jsonRPCMethodNotFoundError`. -/
def jsonRPCMethodNotFoundError : Int := -32601

/-- `jsonRPCInvalidParamsError` (reserved, unused beyond definition). -/
def jsonRPCInvalidParamsError : Int := -32602

/-- `jsonRPCInternalError`. -/
def jsonRPCInternalError : Int := -32603

/-- A server endpoint: `func(ctx, request) (response, error)`.  `Ctx` models
`context.Context`, `Val` models `any`. -/
def Endpoint (Ctx Val : Type) : Type := Ctx → Val → Except String Val

/-- `jsonRPCError`: error member of a server response envelope.  `Data` is an
`any` with `omitempty`; `Json.null` models Go `nil`. -/
structure jsonRPCError where
  Code : Int
  Message : String
  Data : Json

/-- `jsonRPCRequest`: a decoded request envelope; `ID` is `any` (so any JSON
value, `Json.null` for absent), `Params` a raw message. -/
structure jsonRPCRequest where
  ID : Json
  Version : String
  Method : String
  Params : Json

/-- `jsonRPCResponse`: a response envelope; `Error` and `Result` carry
`omitempty`, modelled as `Option`. -/
structure jsonRPCResponse where
  ID : Json
  Version : String
  Error : Option jsonRPCError
  Result : Option Json

/-- `jsonRPCRequestData`: the unmarshalling target of the request body; a
batch flag plus the decoded envelopes. -/
structure jsonRPCRequestData where
  requests : List jsonRPCRequest
  isBatch : Bool

/-- Server `Options`: before/after hooks and endpoint middleware.  `before`
hooks may fail and rewrite the context; `after` hooks rewrite the context
(their response-writer side channel is external to the model). -/
structure Options (Ctx Val : Type) where
  before : List (Ctx → Except String Ctx)
  after : List (Ctx → Ctx)
  middleware : List (Endpoint Ctx Val → Endpoint Ctx Val)

/-- A registered method: endpoint, params decoder (`ReqDecode`), and the
options composed at registration time. -/
structure ServerMethod (Ctx Val : Type) where
  endpoint : Endpoint Ctx Val
  reqDecode : Ctx → Json → Except String Val
  opts : Options Ctx Val

/-- The server: the method registry (a Go map, modelled as an association
list with replace-on-insert) and the server-wide default options. -/
structure Server (Ctx Val : Type) where
  methods : List (String × ServerMethod Ctx Val)
  opts : Options Ctx Val

/-- Go map insert `s.methods[method] = sm`: replaces an existing binding,
otherwise appends. -/
def mapInsert {β : Type} (m : List (String × β)) (k : String) (v : β) :
    List (String × β) :=
  match m with
  | [] => [(k, v)]
  | (k', v') :: rest =>
    if k' = k then (k, v) :: rest else (k', v') :: mapInsert rest k v

/-- Go map lookup `method, ok := s.methods[req.Method]`. -/
def mapFind {β : Type} (m : List (String × β)) (k : String) : Option β :=
  match m with
  | [] => none
  | (k', v') :: rest => if k' = k then some v' else mapFind rest k

/-- A functional `Option` (the Go `Option func(*Options)`): `Before`, `After`
and `EndpointMiddleware` all append to the corresponding list. -/
def OptionFn (Ctx Val : Type) : Type := Options Ctx Val → Options Ctx Val

/-- The `Before(...)` server option. -/
def BeforeOpt {Ctx Val : Type} (before : List (Ctx → Except String Ctx)) :
    OptionFn Ctx Val :=
  fun o => { o with before := o.before ++ before }

/-- The `After(...)` server option. -/
def AfterOpt {Ctx Val : Type} (after : List (Ctx → Ctx)) : OptionFn Ctx Val :=
  fun o => { o with after := o.after ++ after }

/-- The `EndpointMiddleware(...)` server option. -/
def EndpointMiddlewareOpt {Ctx Val : Type}
    (mws : List (Endpoint Ctx Val → Endpoint Ctx Val)) : OptionFn Ctx Val :=
  fun o => { o with middleware := o.middleware ++ mws }

/-- `Server.Register`: copies the server-wide default options into a fresh
`Options` value, applies the method-specific option functions to it, stores
the method under its name, and returns the updated server together with the
`*ServerMethod`. -/
def Register {Ctx Val : Type} (s : Server Ctx Val) (method : String)
    (endpoint : Endpoint Ctx Val) (reqDecode : Ctx → Json → Except String Val)
    (opts : List (OptionFn Ctx Val)) : Server Ctx Val × ServerMethod Ctx Val :=
  let o : Options Ctx Val :=
    { before := s.opts.before
      after := s.opts.after
      middleware := s.opts.middleware }
  let o := opts.foldl (fun acc opt => opt acc) o
  let sm : ServerMethod Ctx Val := { endpoint := endpoint, reqDecode := reqDecode, opts := o }
  ({ s with methods := mapInsert s.methods method sm }, sm)

/-- `NewServer`: applies the option functions to empty options; the method
registry starts empty. -/
def NewServer {Ctx Val : Type} (opts : List (OptionFn Ctx Val)) : Server Ctx Val :=
  let o := opts.foldl (fun acc opt => opt acc) ⟨[], [], []⟩
  { methods := [], opts := o }

/-- `Server.makeErrorResponse`. -/
def makeErrorResponse (id : Json) (code : Int) (message : String) : jsonRPCResponse :=
  { ID := id, Version := "2.0"
    Error := some { Code := code, Message := message, Data := .null }
    Result := none }

/-- `Server.handleMethod`: run the method's before hooks (a failure aborts),
decode the params, invoke the endpoint through the middleware chain composed
at registration (`middlewareChain(method.opts.middleware)`), then run the
after hooks (context discarded). -/
def handleMethod {Ctx Val : Type} (method : ServerMethod Ctx Val) (ctx : Ctx)
    (params : Json) : Except String Val := do
  let ctx ← method.opts.before.foldlM (fun c b => b c) ctx
  let request ← method.reqDecode ctx params
  let response ← middlewareChain method.opts.middleware method.endpoint ctx request
  let _ := method.opts.after.foldl (fun c a => a c) ctx
  pure response

/-- One iteration of the dispatch loop of `Server.ServeHTTP`: registry lookup
(miss gives `-32601`), `handleMethod` (failure gives `-32603`),
`json.Marshal` of the result (failure gives `-32603`), otherwise a success
envelope echoing the request id.  `marshal` is the external `json.Marshal`
capability for `Val`. -/
def handleRequest {Ctx Val : Type} (marshal : Val → Except String Json)
    (s : Server Ctx Val) (ctx : Ctx) (req : jsonRPCRequest) : jsonRPCResponse :=
  match mapFind s.methods req.Method with
  | none =>
    makeErrorResponse req.ID jsonRPCMethodNotFoundError
      ("method " ++ req.Method ++ " not found")
  | some method =>
    match handleMethod method ctx req.Params with
    | .error msg => makeErrorResponse req.ID jsonRPCInternalError msg
    | .ok resp =>
      match marshal resp with
      | .error msg => makeErrorResponse req.ID jsonRPCInternalError msg
      | .ok result => { ID := req.ID, Version := "2.0", Error := none, Result := some result }

/-! ## Wire decoding of the request body -/

/-- Decode one JSON value into a `jsonRPCRequest` (Go `json.Unmarshal` into
the tagged struct): `null` leaves the zero value, an object fills the fields
(`jsonrpc` and `method` must be strings, `id` accepts any value, `params` is
captured raw), and any other value is a type error. -/
def decodeRequest : Json → Except String jsonRPCRequest
  | .null => .ok { ID := .null, Version := "", Method := "", Params := .null }
  | .obj fields => do
    let id := (lookupField fields "id").getD .null
    let version ←
      match lookupField fields "jsonrpc" with
      | none => .ok ""
      | some .null => .ok ""
      | some (.str s) => .ok s
      | some _ => .error "json: cannot unmarshal value into Go struct field jsonRPCRequest.jsonrpc of type string"
    let method ←
      match lookupField fields "method" with
      | none => .ok ""
      | some .null => .ok ""
      | some (.str s) => .ok s
      | some _ => .error "json: cannot unmarshal value into Go struct field jsonRPCRequest.method of type string"
    let params := (lookupField fields "params").getD .null
    .ok { ID := id, Version := version, Method := method, Params := params }
  | _ => .error "json: cannot unmarshal value into Go value of type jsonRPCRequest"

/-- Decode a JSON array into `[]jsonRPCRequest`: elements are decoded in
order; the first element error is reported (failed elements are left at the
zero value, matching `encoding/json`'s save-first-error behaviour — the
caller never reads the slice when an error is returned). -/
def decodeRequestList (vs : List Json) : List jsonRPCRequest × Option String :=
  match vs with
  | [] => ([], none)
  | v :: rest =>
    let (rs, err) := decodeRequestList rest
    match decodeRequest v with
    | .ok r => (r :: rs, err)
    | .error msg =>
      ({ ID := .null, Version := "", Method := "", Params := .null } :: rs, some msg)

/-- `jsonRPCRequestData.UnmarshalJSON` on a complete JSON value `v`, starting
from the state `r`: if the value is an array, `r.isBatch` is set to `true`
**before** the element decode is attempted (so the flag survives a decode
failure); otherwise a single envelope is decoded and appended.  Returns the
final state and the error, mirroring the Go mutation-plus-error signature. -/
def unmarshalRequestData (r : jsonRPCRequestData) (v : Json) :
    jsonRPCRequestData × Option String :=
  match v with
  | .arr vs =>
    let r := { r with isBatch := true }
    let (rs, err) := decodeRequestList vs
    ({ r with requests := rs }, err)
  | _ =>
    match decodeRequest v with
    | .error msg => (r, some msg)
    | .ok req => ({ r with requests := r.requests ++ [req] }, none)

/-- The request body handed to the server: either a syntactically complete
top-level JSON value (passed to `UnmarshalJSON`), or a body in which no
complete value could be read (empty body, truncated JSON, …), in which case
`json.Decoder.Decode` fails before `UnmarshalJSON` runs. -/
inductive ServerBody : Type where
  | syntaxError : String → ServerBody
  | value : Json → ServerBody

/-- `json.NewDecoder(r.Body).Decode(&requestData)` applied to the zero-valued
`requestData`: returns the (possibly partially mutated) `requestData` and the
decode error. -/
def decodeBody (body : ServerBody) : jsonRPCRequestData × Option String :=
  match body with
  | .syntaxError msg => (⟨[], false⟩, some msg)
  | .value v => unmarshalRequestData ⟨[], false⟩ v

/-- What the server writes back: either a JSON array of envelopes (batch
framing) or a single unwrapped envelope. -/
inductive ServerOutput : Type where
  | wrappedBatch : List jsonRPCResponse → ServerOutput
  | unwrapped : jsonRPCResponse → ServerOutput

/-- `Server.ServeHTTP`: decode the body (a failure yields a single parse
error envelope with `nil` id); otherwise dispatch every decoded envelope in
order; finally emit the responses as an array iff `requestData.isBatch`,
otherwise emit `responses[0]` unwrapped.  `none` models the panic of
`responses[0]` on an empty slice. -/
def serveHTTP {Ctx Val : Type} (marshal : Val → Except String Json)
    (s : Server Ctx Val) (ctx : Ctx) (body : ServerBody) : Option ServerOutput :=
  let (requestData, decodeErr) := decodeBody body
  let responses :=
    match decodeErr with
    | some msg => [makeErrorResponse .null jsonRPCParseError msg]
    | none => requestData.requests.map (handleRequest marshal s ctx)
  if requestData.isBatch then
    some (.wrappedBatch responses)
  else
    responses.head?.map .unwrapped

/-! ## Wire encoding of a response envelope and client-side decoding -/

/-- Go `json.Marshal` of a `jsonRPCResponse` per its struct tags: fields in
declaration order; `error` and `result` are omitted when empty; inside the
error member, `data` is omitted when nil. -/
def encodeJsonRPCError (e : jsonRPCError) : Json :=
  .obj ([("code", .num e.Code), ("message", .str e.Message)] ++
    (if e.Data.isNull then [] else [("data", e.Data)]))

/-- Encoding of the full response envelope. -/
def encodeJsonRPCResponse (r : jsonRPCResponse) : Json :=
  .obj ([("id", r.ID), ("jsonrpc", .str r.Version)] ++
    (match r.Error with
     | none => []
     | some e => [("error", encodeJsonRPCError e)]) ++
    (match r.Result with
     | none => []
     | some v => [("result", v)]))

/-- Client-side `json.Unmarshal` of one envelope into `clientError`. -/
def decodeClientError (v : Json) : Except String (Option clientError) :=
  match v with
  | .null => .ok none
  | .obj fields => do
    let code ←
      match lookupField fields "code" with
      | none => .ok (0 : Int)
      | some .null => .ok (0 : Int)
      | some (.num n) => .ok n
      | some _ => .error "json: cannot unmarshal value into Go struct field clientError.code of type int"
    let message ←
      match lookupField fields "message" with
      | none => .ok ""
      | some .null => .ok ""
      | some (.str s) => .ok s
      | some _ => .error "json: cannot unmarshal value into Go struct field clientError.message of type string"
    let data := (lookupField fields "data").getD .null
    .ok (some { Code := code, Message := message, Data := data })
  | _ => .error "json: cannot unmarshal value into Go value of type clientError"

/-- Client-side `json.Unmarshal` of one envelope into `clientResp`: `id` must
be a non-negative JSON number (Go `uint64`), `jsonrpc` a string, `error` an
object or null, and `result` is captured as a raw message (`none` when the
field is absent). -/
def decodeClientResp (v : Json) : Except String clientResp :=
  match v with
  | .obj fields => do
    let id ←
      match lookupField fields "id" with
      | none => .ok 0
      | some .null => .ok 0
      | some (.num n) =>
        if 0 ≤ n then .ok n.toNat
        else .error "json: cannot unmarshal negative number into Go struct field clientResp.id of type uint64"
      | some _ => .error "json: cannot unmarshal value into Go struct field clientResp.id of type uint64"
    let _ ←
      match lookupField fields "jsonrpc" with
      | none => .ok ""
      | some .null => .ok ""
      | some (.str s) => .ok s
      | some _ => .error "json: cannot unmarshal value into Go struct field clientResp.jsonrpc of type string"
    let error ←
      match lookupField fields "error" with
      | none => .ok none
      | some ev => decodeClientError ev
    let result := lookupField fields "result"
    .ok { ID := id, Error := error, Result := result }
  | _ => .error "json: cannot unmarshal value into Go value of type clientResp"

/-! ## Instrumentation and concrete inputs used by the property statements -/

/-- The list of wire `id`s a call assigns, in wire order. -/
def assignedIDs {α : Type} (requests : List (Requester α)) : List Nat :=
  ((assignIDs requests).2.1).map (fun r => r.ID)

/-- Whether the request body "looked like a batch" to the decoder, i.e. the
top-level value began with `[`. -/
def bodyLooksBatch : ServerBody → Bool
  | .syntaxError _ => false
  | .value v => v.isArr

/-- Tracing middleware over endpoints whose value is a call trace: records
`enter l` on the way in and `exit l` on the way out. -/
def traceMW {Ctx : Type} (l : String) (next : Endpoint Ctx (List String)) :
    Endpoint Ctx (List String) :=
  fun ctx t => (next ctx (t ++ ["enter " ++ l])).map (fun u => u ++ ["exit " ++ l])

/-- A tracing endpoint: records `E` when the business logic runs. -/
def traceEndpoint {Ctx : Type} : Endpoint Ctx (List String) :=
  fun _ t => .ok (t ++ ["E"])

/-- A typed request whose result conversion reads the JSON number out of the
raw result bytes. -/
def numRequester (name : String) : Requester Nat :=
  { method := name, params := .null
    makeResult := fun raw =>
      match raw with
      | some (.num n) => .ok n.toNat
      | _ => .ok 0 }

/-- A concrete two-request batch. -/
def demoRequests : List (Requester Nat) :=
  [numRequester "a", numRequester "b"]

/-- A client with a stale counter value, to exercise the reset. -/
def demoClient : Client := ⟨7⟩

/-- Wire responses for `demoRequests` arriving in reversed order. -/
def demoWire : List clientResp :=
  [⟨2, none, some (.num 20)⟩, ⟨1, none, some (.num 10)⟩]

/-- A response envelope whose id `99` was never assigned. -/
def unknownIdResp : clientResp :=
  ⟨99, some ⟨5, "boom", .null⟩, none⟩

/-- `json.Marshal` capability for `Nat`-valued endpoints. -/
def demoMarshal : Nat → Except String Json :=
  fun n => .ok (.num n)

/-- A server with a single method `echo` returning its decoded numeric
params. -/
def demoServer : Server Unit Nat :=
  (Register (NewServer []) "echo" (fun _ v => .ok v)
    (fun _ p => match p with | .num n => .ok n.toNat | _ => .ok 0) []).1

/-- A well-formed request envelope for `demoServer`'s `echo` method. -/
def demoReqJson : Json :=
  .obj [("id", .num 1), ("jsonrpc", .str "2.0"), ("method", .str "echo"),
    ("params", .num 7)]

/-- A request envelope naming an unregistered method. -/
def demoBogusJson : Json :=
  .obj [("id", .num 2), ("jsonrpc", .str "2.0"), ("method", .str "bogus"),
    ("params", .null)]

/-- The decoded form of `demoReqJson`. -/
def demoDecodedReq : jsonRPCRequest := ⟨.num 1, "2.0", "echo", .num 7⟩

/-- The decoded form of `demoBogusJson`. -/
def demoDecodedBogus : jsonRPCRequest := ⟨.num 2, "2.0", "bogus", .null⟩

/-! ## Theorems -/

/-- C2: for every middleware list `[A, B, C]` and endpoint `E`, the composed
endpoint observes enter-order `A, B, C, E` and exit-order `E, C, B, A` — the
first element of the list is the outermost wrapper (conjunct 2 states this
structurally: the head of the list wraps the composition of the tail) — and
for the empty list the composer returns the input endpoint unchanged. -/
theorem middlewareChain_order :
    (∀ (E : Type) (next : E), middlewareChain [] next = next) ∧
    (∀ (E : Type) (m : E → E) (ms : List (E → E)) (next : E),
      middlewareChain (m :: ms) next = m (middlewareChain ms next)) ∧
    (∀ (Ctx : Type) (lA lB lC : String) (ctx : Ctx) (t : List String),
      middlewareChain [traceMW lA, traceMW lB, traceMW lC] traceEndpoint ctx t =
        .ok (t ++ ["enter " ++ lA, "enter " ++ lB, "enter " ++ lC, "E",
          "exit " ++ lC, "exit " ++ lB, "exit " ++ lA])) := by
  refine ⟨fun E next => rfl, ?_, ?_⟩
  · intro E m ms next
    cases ms with
    | nil => rfl
    | cons b bs => simp [middlewareChain, List.foldl_append]
  · intro Ctx lA lB lC ctx t
    simp [middlewareChain, traceMW, traceEndpoint, Except.map]

/-- C10: `ServeHTTP` never indexes the response slice out of bounds — for
every request body, including bodies that fail to decode, the model never
reaches the panic (`none`) of reading `responses[0]` on an empty slice. -/
theorem serveHTTP_no_oob {Ctx Val : Type} (marshal : Val → Except String Json)
    (s : Server Ctx Val) (ctx : Ctx) (body : ServerBody) :
    (serveHTTP marshal s ctx body).isSome := by
  cases body with
  | syntaxError msg => rfl
  | value v =>
    cases v with
    | null => rfl
    | bool b => rfl
    | num n => rfl
    | str sv => rfl
    | arr vs =>
      rcases hd : decodeRequestList vs with ⟨rs, err⟩
      cases err <;>
        simp [serveHTTP, decodeBody, unmarshalRequestData, hd]
    | obj fields =>
      rcases h : decodeRequest (.obj fields) with msg | req <;>
        simp [serveHTTP, decodeBody, unmarshalRequestData, h]

/-- C9: a method registered with method-specific middleware on a server with
server-wide defaults stores, at registration time, the composed chain with
the server-wide middleware first (hence outermost, conjunct 3 exhibits the
enter/exit trace); and dispatch reads only the options stored in the
registered method, so the server's own option set is irrelevant at dispatch
time (conjunct 2). -/
theorem register_composes_at_registration :
    (∀ (Ctx Val : Type) (s : Server Ctx Val) (name : String)
      (ep : Endpoint Ctx Val) (dec : Ctx → Json → Except String Val)
      (mws : List (Endpoint Ctx Val → Endpoint Ctx Val)),
      ((Register s name ep dec [EndpointMiddlewareOpt mws]).2).opts.middleware =
        s.opts.middleware ++ mws) ∧
    (∀ (Ctx Val : Type) (marshal : Val → Except String Json)
      (s : Server Ctx Val) (o2 : Options Ctx Val) (ctx : Ctx)
      (req : jsonRPCRequest),
      handleRequest marshal { s with opts := o2 } ctx req =
        handleRequest marshal s ctx req) ∧
    (∀ (Ctx : Type) (lS lM : String) (ctx : Ctx) (params : Json),
      handleMethod
        ((Register (@NewServer Ctx (List String) [EndpointMiddlewareOpt [traceMW lS]])
          "m" traceEndpoint (fun _ _ => .ok []) [EndpointMiddlewareOpt [traceMW lM]]).2)
        ctx params =
        .ok ["enter " ++ lS, "enter " ++ lM, "E", "exit " ++ lM, "exit " ++ lS]) := by
  refine ⟨?_, ?_, ?_⟩
  · intro Ctx Val s name ep dec mws
    simp [Register, EndpointMiddlewareOpt]
  · intro Ctx Val marshal s o2 ctx req
    rfl
  · intro Ctx lS lM ctx params
    simp [Register, NewServer, EndpointMiddlewareOpt, handleMethod,
      middlewareChain, traceMW, traceEndpoint, Except.map, bind, Except.bind,
      pure, Except.pure]

/-- C6: error round-trip — serializing an application error `{c, m, d}` into
a response envelope on the server and deserializing it on the client yields
the same code, message and data, and the decode+correlate loop surfaces it as
that element's typed result (`some (.inl …)` in the slot) while the call
itself succeeds; the `Error` accessors expose the same `c`, `m`, `d`. -/
theorem error_roundtrip (c : Int) (m : String) (d : Json) (idv : Nat)
    {α : Type} (cl : Client) (req : Requester α) :
    decodeClientResp (encodeJsonRPCResponse
        { ID := .num (idv : Int), Version := "2.0", Error := some ⟨c, m, d⟩,
          Result := none }) =
      .ok { ID := idv, Error := some ⟨c, m, d⟩, Result := none } ∧
    executeWithContext cl [req]
        [{ ID := 1, Error := some ⟨c, m, d⟩, Result := none }] =
      some (.ok ⟨[some (.inl ⟨c, m, d⟩)]⟩) ∧
    (Error.mk c m d).Code = c ∧ (Error.mk c m d).ErrorString = m ∧
    (Error.mk c m d).Data = d := by
  refine ⟨?_, ?_, rfl, rfl, rfl⟩
  · cases d <;>
      simp [encodeJsonRPCResponse, encodeJsonRPCError, decodeClientResp,
        decodeClientError, lookupField, Json.isNull, bind, Except.bind,
        pure, Except.pure, Int.toNat_natCast]
  · rfl

/-- Helper: a batch body whose elements all decode is dispatched element-wise
in request-array order and emitted as a JSON array. -/
theorem serveHTTP_batch_eq {Ctx Val : Type} (marshal : Val → Except String Json)
    (s : Server Ctx Val) (ctx : Ctx) (vs : List Json)
    (reqs : List jsonRPCRequest) (hdec : decodeRequestList vs = (reqs, none)) :
    serveHTTP marshal s ctx (.value (.arr vs)) =
      some (.wrappedBatch (reqs.map (handleRequest marshal s ctx))) := by
  simp [serveHTTP, decodeBody, unmarshalRequestData, hdec]

/-- Helper: a single (non-array) body that decodes is dispatched once and the
one envelope is emitted unwrapped. -/
theorem serveHTTP_single_eq {Ctx Val : Type} (marshal : Val → Except String Json)
    (s : Server Ctx Val) (ctx : Ctx) (v : Json) (req : jsonRPCRequest)
    (hnb : v.isArr = false) (hdec : decodeRequest v = .ok req) :
    serveHTTP marshal s ctx (.value v) =
      some (.unwrapped (handleRequest marshal s ctx req)) := by
  cases v <;>
    simp_all [serveHTTP, decodeBody, unmarshalRequestData, decodeRequest,
      Json.isArr]

/-- C4: the server's respond step preserves request framing — a JSON-array
payload whose elements decode yields a JSON array of response envelopes in
request-array order, and a single unwrapped object yields exactly one
unwrapped response envelope. -/
theorem serveHTTP_framing_preserved :
    (∀ (Ctx Val : Type) (marshal : Val → Except String Json)
      (s : Server Ctx Val) (ctx : Ctx) (vs : List Json)
      (reqs : List jsonRPCRequest),
      decodeRequestList vs = (reqs, none) →
      serveHTTP marshal s ctx (.value (.arr vs)) =
        some (.wrappedBatch (reqs.map (handleRequest marshal s ctx)))) ∧
    (∀ (Ctx Val : Type) (marshal : Val → Except String Json)
      (s : Server Ctx Val) (ctx : Ctx) (v : Json) (req : jsonRPCRequest),
      v.isArr = false → decodeRequest v = .ok req →
      serveHTTP marshal s ctx (.value v) =
        some (.unwrapped (handleRequest marshal s ctx req))) :=
  ⟨fun _ _ marshal s ctx vs reqs h => serveHTTP_batch_eq marshal s ctx vs reqs h,
   fun _ _ marshal s ctx v req hnb hdec =>
     serveHTTP_single_eq marshal s ctx v req hnb hdec⟩

/-- Witness for C4 at a concrete server and body: the echo request as a
one-element batch is answered with a one-element array, and the same request
unwrapped is answered with a single unwrapped envelope. -/
theorem serveHTTP_framing_preserved_witness :
    serveHTTP demoMarshal demoServer () (.value (.arr [demoReqJson])) =
      some (.wrappedBatch
        ([demoDecodedReq].map (handleRequest demoMarshal demoServer ()))) ∧
    serveHTTP demoMarshal demoServer () (.value demoReqJson) =
      some (.unwrapped (handleRequest demoMarshal demoServer () demoDecodedReq)) :=
  ⟨serveHTTP_framing_preserved.1 Unit Nat demoMarshal demoServer ()
      [demoReqJson] [demoDecodedReq] (by rfl),
   serveHTTP_framing_preserved.2 Unit Nat demoMarshal demoServer ()
      demoReqJson demoDecodedReq (by rfl) (by rfl)⟩

/-- C7: in a dispatched batch, an element whose method is not registered gets
an error envelope carrying that element's id and code `-32601`, and every
element — in particular every sibling with a registered method — receives
exactly the response of processing it alone (per-element isolation: the
response list is the element-wise map of the dispatcher). -/
theorem serveHTTP_unknown_method_isolation
    {Ctx Val : Type} (marshal : Val → Except String Json) (s : Server Ctx Val)
    (ctx : Ctx) (vs : List Json) (reqs : List jsonRPCRequest) (j : Nat)
    (rj : jsonRPCRequest)
    (hdec : decodeRequestList vs = (reqs, none))
    (hj : reqs[j]? = some rj)
    (hmiss : mapFind s.methods rj.Method = none) :
    serveHTTP marshal s ctx (.value (.arr vs)) =
      some (.wrappedBatch (reqs.map (handleRequest marshal s ctx))) ∧
    (reqs.map (handleRequest marshal s ctx))[j]? =
      some (makeErrorResponse rj.ID jsonRPCMethodNotFoundError
        ("method " ++ rj.Method ++ " not found")) ∧
    ∀ (i : Nat) (ri : jsonRPCRequest), reqs[i]? = some ri →
      (reqs.map (handleRequest marshal s ctx))[i]? =
        some (handleRequest marshal s ctx ri) := by
  refine ⟨serveHTTP_batch_eq marshal s ctx vs reqs hdec, ?_, ?_⟩
  · rw [List.getElem?_map, hj]
    simp [handleRequest, hmiss]
  · intro i ri hi
    rw [List.getElem?_map, hi]
    rfl

/-- Witness for C7: a two-element batch `echo`/`bogus` against a server that
registers only `echo`; the `bogus` element gets the `-32601` envelope with id
`2` and the `echo` element is processed normally. -/
theorem serveHTTP_unknown_method_isolation_witness :
    serveHTTP demoMarshal demoServer () (.value (.arr [demoReqJson, demoBogusJson])) =
      some (.wrappedBatch
        ([demoDecodedReq, demoDecodedBogus].map
          (handleRequest demoMarshal demoServer ()))) ∧
    ([demoDecodedReq, demoDecodedBogus].map
        (handleRequest demoMarshal demoServer ()))[1]? =
      some (makeErrorResponse demoDecodedBogus.ID jsonRPCMethodNotFoundError
        ("method " ++ demoDecodedBogus.Method ++ " not found")) ∧
    ∀ (i : Nat) (ri : jsonRPCRequest),
      [demoDecodedReq, demoDecodedBogus][i]? = some ri →
      ([demoDecodedReq, demoDecodedBogus].map
          (handleRequest demoMarshal demoServer ()))[i]? =
        some (handleRequest demoMarshal demoServer () ri) :=
  serveHTTP_unknown_method_isolation demoMarshal demoServer ()
    [demoReqJson, demoBogusJson] [demoDecodedReq, demoDecodedBogus] 1
    demoDecodedBogus (by rfl) (by rfl) (by rfl)

/-- Counterexample to C8: for the body `[1]` — a JSON array whose element
fails to decode — the server emits the single `-32700` envelope **wrapped in
a one-element array**, not unwrapped: `UnmarshalJSON` sets `isBatch = true`
before the element decode fails, and `ServeHTTP` keys the framing on that
flag. -/
theorem parse_error_unwrapped_cex :
    serveHTTP demoMarshal demoServer () (.value (.arr [.num 1])) =
      some (.wrappedBatch [makeErrorResponse .null jsonRPCParseError
        "json: cannot unmarshal value into Go value of type jsonRPCRequest"]) ∧
    ∀ r : jsonRPCResponse,
      serveHTTP demoMarshal demoServer () (.value (.arr [.num 1])) ≠
        some (.unwrapped r) := by
  refine ⟨rfl, ?_⟩
  intro r h
  rw [show serveHTTP demoMarshal demoServer () (.value (.arr [.num 1])) =
      some (.wrappedBatch [makeErrorResponse .null jsonRPCParseError
        "json: cannot unmarshal value into Go value of type jsonRPCRequest"])
    from rfl] at h
  simp at h

/-- C8 as amended: a body that fails top-level decoding always produces the
single `-32700` envelope with id null and no per-element processing; it is
emitted unwrapped exactly when the body did **not** look like a batch (did
not begin with `[`), and wrapped in a one-element array when it did. -/
theorem parse_error_single_envelope :
    ∀ (Ctx Val : Type) (marshal : Val → Except String Json) (s : Server Ctx Val)
      (ctx : Ctx) (body : ServerBody) (rd : jsonRPCRequestData) (msg : String),
      decodeBody body = (rd, some msg) →
      serveHTTP marshal s ctx body =
        some (if rd.isBatch then
          .wrappedBatch [makeErrorResponse .null jsonRPCParseError msg]
        else
          .unwrapped (makeErrorResponse .null jsonRPCParseError msg)) ∧
      rd.isBatch = bodyLooksBatch body := by
  intro Ctx Val marshal s ctx body rd msg hfail
  constructor
  · cases hb : rd.isBatch <;> simp [serveHTTP, hfail, hb]
  · cases body with
    | syntaxError m =>
      simp only [decodeBody, Prod.mk.injEq] at hfail
      rw [← hfail.1]
      rfl
    | value v =>
      cases v with
      | arr vs =>
        rcases hd : decodeRequestList vs with ⟨rs, err⟩
        simp only [decodeBody, unmarshalRequestData, hd, Prod.mk.injEq] at hfail
        rw [← hfail.1]
        rfl
      | obj fields =>
        rcases h : decodeRequest (.obj fields) with m | req
        · simp only [decodeBody, unmarshalRequestData, h, Prod.mk.injEq] at hfail
          rw [← hfail.1]
          rfl
        · simp [decodeBody, unmarshalRequestData, h] at hfail
      | null => simp_all [decodeBody, unmarshalRequestData, decodeRequest]
      | bool b =>
        simp only [decodeBody, unmarshalRequestData, decodeRequest,
          Prod.mk.injEq] at hfail
        rw [← hfail.1]
        rfl
      | num n =>
        simp only [decodeBody, unmarshalRequestData, decodeRequest,
          Prod.mk.injEq] at hfail
        rw [← hfail.1]
        rfl
      | str sv =>
        simp only [decodeBody, unmarshalRequestData, decodeRequest,
          Prod.mk.injEq] at hfail
        rw [← hfail.1]
        rfl

/-- Witness for the amended C8, at both framings: the array body `[1]` gives
the wrapped parse-error envelope, the number body `1` gives it unwrapped. -/
theorem parse_error_single_envelope_witness :
    (serveHTTP demoMarshal demoServer () (.value (.arr [.num 1])) =
      some (if (⟨[⟨.null, "", "", .null⟩], true⟩ : jsonRPCRequestData).isBatch then
        .wrappedBatch [makeErrorResponse .null jsonRPCParseError
          "json: cannot unmarshal value into Go value of type jsonRPCRequest"]
      else
        .unwrapped (makeErrorResponse .null jsonRPCParseError
          "json: cannot unmarshal value into Go value of type jsonRPCRequest")) ∧
      (⟨[⟨.null, "", "", .null⟩], true⟩ : jsonRPCRequestData).isBatch =
        bodyLooksBatch (.value (.arr [.num 1]))) ∧
    (serveHTTP demoMarshal demoServer () (.value (.num 1)) =
      some (if (⟨[], false⟩ : jsonRPCRequestData).isBatch then
        .wrappedBatch [makeErrorResponse .null jsonRPCParseError
          "json: cannot unmarshal value into Go value of type jsonRPCRequest"]
      else
        .unwrapped (makeErrorResponse .null jsonRPCParseError
          "json: cannot unmarshal value into Go value of type jsonRPCRequest")) ∧
      (⟨[], false⟩ : jsonRPCRequestData).isBatch =
        bodyLooksBatch (.value (.num 1))) :=
  ⟨parse_error_single_envelope Unit Nat demoMarshal demoServer ()
      (.value (.arr [.num 1])) ⟨[⟨.null, "", "", .null⟩], true⟩
      "json: cannot unmarshal value into Go value of type jsonRPCRequest" (by rfl),
   parse_error_single_envelope Unit Nat demoMarshal demoServer ()
      (.value (.num 1)) ⟨[], false⟩
      "json: cannot unmarshal value into Go value of type jsonRPCRequest" (by rfl)⟩

/-- Helper: the map lookup on a cons cell of the correlation table. -/
theorem goMapLookup_cons (a b k : Nat) (t : List (Nat × Nat)) :
    goMapLookup ((a, b) :: t) k = if a = k then b else goMapLookup t k := by
  simp only [goMapLookup, List.find?_cons]
  by_cases h : a = k <;> simp [h]

/-- Helper: with no counter overflow, the wire requests built from a running
counter carry the consecutive ids `counter+1, …, counter+len`, and the
methods/params of the inputs in their original order. -/
theorem assignIDsFrom_spec {α : Type} :
    ∀ (requests : List (Requester α)) (counter idx : Nat),
      counter + requests.length < 2 ^ 64 →
      ((assignIDsFrom counter idx requests).2.1).map (fun r => r.ID) =
        List.range' (counter + 1) requests.length ∧
      ((assignIDsFrom counter idx requests).2.1).map
          (fun r => (r.Method, r.Params)) =
        requests.map (fun r => (r.method, r.params)) := by
  intro requests
  induction requests with
  | nil => intro counter idx h; constructor <;> rfl
  | cons r rest ih =>
    intro counter idx h
    have h1 : counter + 1 < 2 ^ 64 := by
      simp only [List.length_cons] at h; omega
    have hmod : autoIncrementID counter = counter + 1 := Nat.mod_eq_of_lt h1
    have hrec := ih (counter + 1) (idx + 1) (by
      simp only [List.length_cons] at h; omega)
    rcases he : assignIDsFrom (counter + 1) (idx + 1) rest with ⟨c2, reqs2, ids2⟩
    rw [he] at hrec
    simp only [assignIDsFrom, hmod, he, List.map_cons, List.length_cons,
      List.range'_succ]
    exact ⟨by rw [hrec.1], by rw [hrec.2]⟩

/-- Helper: the correlation table built from a running counter maps the id
`counter+1+i` to the slot `idx+i`, and any other key to the Go zero value. -/
theorem goMapLookup_assignIDsFrom {α : Type} :
    ∀ (requests : List (Requester α)) (counter idx k : Nat),
      counter + requests.length < 2 ^ 64 →
      goMapLookup (assignIDsFrom counter idx requests).2.2 k =
        if counter + 1 ≤ k ∧ k ≤ counter + requests.length then
          idx + (k - (counter + 1))
        else 0 := by
  intro requests
  induction requests with
  | nil =>
    intro counter idx k h
    rw [if_neg (by simp only [List.length_nil]; omega)]
    rfl
  | cons r rest ih =>
    intro counter idx k h
    have h1 : counter + 1 < 2 ^ 64 := by
      simp only [List.length_cons] at h; omega
    have hmod : autoIncrementID counter = counter + 1 := Nat.mod_eq_of_lt h1
    have hrec := ih (counter + 1) (idx + 1) k (by
      simp only [List.length_cons] at h; omega)
    rcases he : assignIDsFrom (counter + 1) (idx + 1) rest with ⟨c2, reqs2, ids2⟩
    rw [he] at hrec
    simp only [assignIDsFrom, hmod, he, List.length_cons]
    rw [goMapLookup_cons, hrec]
    by_cases hk : counter + 1 = k
    · rw [if_pos hk, if_pos (by omega)]
      omega
    · rw [if_neg hk]
      split_ifs <;> omega

/-- Counterexample to C5: the first id assigned to a batch is `1`, not `0` —
`atomic.AddUint64` returns the incremented value, so ids are one-based. -/
theorem zero_based_ids_cex :
    assignedIDs [numRequester "a"] = [1] ∧
    assignedIDs [numRequester "a"] ≠ [0] := by
  refine ⟨rfl, ?_⟩
  intro h
  rw [show assignedIDs [numRequester "a"] = [1] from rfl] at h
  simp at h

/-- C5 as amended: the ID counter is reset to zero at the start of the call
(the outcome is independent of the client's previous counter value), and the
wire ids are unique, sequential and **one-based** — `1, …, N` — assigned in
the order the requests were given (the i-th wire request carries id `i+1` and
the i-th input's method and params). -/
theorem doRequests_id_assignment {α : Type} (c c' : Client)
    (requests : List (Requester α)) (hsize : requests.length < 2 ^ 64) :
    doRequests c requests = doRequests c' requests ∧
    assignedIDs requests = List.range' 1 requests.length ∧
    (assignedIDs requests).Nodup ∧
    (∀ i, i < requests.length → (assignedIDs requests)[i]? = some (i + 1)) ∧
    ((assignIDs requests).2.1).map (fun r => (r.Method, r.Params)) =
      requests.map (fun r => (r.method, r.params)) := by
  have hspec := assignIDsFrom_spec requests 0 0 (by omega)
  have hids : assignedIDs requests = List.range' 1 requests.length := by
    rw [assignedIDs, assignIDs, hspec.1]
  refine ⟨rfl, hids, ?_, ?_, ?_⟩
  · rw [hids]; exact List.nodup_range' 1 requests.length
  · intro i hi
    rw [hids]
    simpa [Nat.add_comm] using List.getElem?_range' 1 1 hi
  · rw [assignIDs]; exact hspec.2

/-- Witness for the amended C5 on the concrete two-request batch with a stale
counter. -/
theorem doRequests_id_assignment_witness :
    doRequests demoClient demoRequests = doRequests ⟨0⟩ demoRequests ∧
    assignedIDs demoRequests = List.range' 1 demoRequests.length ∧
    (assignedIDs demoRequests).Nodup ∧
    (∀ i, i < demoRequests.length →
      (assignedIDs demoRequests)[i]? = some (i + 1)) ∧
    ((assignIDs demoRequests).2.1).map (fun r => (r.Method, r.Params)) =
      demoRequests.map (fun r => (r.method, r.params)) :=
  doRequests_id_assignment demoClient ⟨0⟩ demoRequests (by decide)

/-- Counterexample to C3: a response envelope with the never-assigned id `99`
is **not** silently ignored during decode+correlate — the Go map lookup
returns the zero value `0`, so its error payload is written into slot 0 of a
two-request batch (the claim requires both slots to stay untouched). -/
theorem unknown_id_ignored_cex :
    executeWithContext demoClient demoRequests [unknownIdResp] =
      some (.ok ⟨[some (.inl ⟨5, "boom", .null⟩), none]⟩) ∧
    executeWithContext demoClient demoRequests [unknownIdResp] ≠
      some (.ok ⟨[none, none]⟩) := by
  refine ⟨rfl, ?_⟩
  intro h
  rw [show executeWithContext demoClient demoRequests [unknownIdResp] =
      some (.ok ⟨[some (.inl ⟨5, "boom", .null⟩), none]⟩) from rfl] at h
  simp at h

/-- C3 as amended: a response envelope whose id has no entry in the
correlation table is processed as if it correlated with the **first**
submitted request — the Go map lookup yields index 0, so (for an error
envelope) the typed error overwrites slot 0; no unknown-id failure is raised
and slots other than 0 are unaffected. -/
theorem unknown_id_hits_slot_zero {α : Type} (c : Client)
    (requests : List (Requester α)) (resp : clientResp) (e : clientError)
    (hN : 1 ≤ requests.length) (hsize : requests.length < 2 ^ 64)
    (herr : resp.Error = some e)
    (hid : resp.ID = 0 ∨ requests.length < resp.ID) :
    executeWithContext c requests [resp] =
      some (.ok ⟨(List.replicate requests.length none).set 0
        (some (.inl ⟨e.Code, e.Message, e.Data⟩))⟩) := by
  have h22 : (doRequests c requests).2.2 = (assignIDsFrom 0 0 requests).2.2 := rfl
  have hlk : goMapLookup (assignIDsFrom 0 0 requests).2.2 resp.ID = 0 := by
    rw [goMapLookup_assignIDsFrom requests 0 0 resp.ID (by omega)]
    rw [if_neg (by omega)]
  simp only [executeWithContext, h22, executeLoop, herr, hlk,
    List.length_replicate]
  rw [if_pos (by omega)]
  rfl

/-- Witness for the amended C3 on the concrete two-request batch and the
id-99 envelope. -/
theorem unknown_id_hits_slot_zero_witness :
    executeWithContext demoClient demoRequests [unknownIdResp] =
      some (.ok ⟨(List.replicate demoRequests.length none).set 0
        (some (.inl ⟨5, "boom", .null⟩))⟩) :=
  unknown_id_hits_slot_zero demoClient demoRequests unknownIdResp
    ⟨5, "boom", .null⟩ (by decide) (by decide) rfl (.inr (by decide))

/-- Helper: slotwise characterization of the decode+correlate loop when the
wire ids are pairwise distinct and all within the assigned range `1..N`: on
success, a slot touched by no envelope keeps its previous value, and the slot
`id-1` of an envelope holds that envelope's processed result. -/
theorem executeLoop_char {α : Type} (requests : List (Requester α))
    (idsIndex : List (Nat × Nat))
    (hlook : ∀ k, goMapLookup idsIndex k =
      if 1 ≤ k ∧ k ≤ requests.length then k - 1 else 0) :
    ∀ (wire : List clientResp) (slots final : List (Option (Error ⊕ α))),
      (∀ r ∈ wire, 1 ≤ r.ID ∧ r.ID ≤ requests.length) →
      (wire.map (fun r => r.ID)).Nodup →
      slots.length = requests.length →
      executeLoop requests idsIndex wire slots = some (.ok final) →
      final.length = slots.length ∧
      ∀ i, i < requests.length →
        ((∀ r ∈ wire, r.ID ≠ i + 1) → final[i]? = slots[i]?) ∧
        (∀ r ∈ wire, r.ID = i + 1 →
          ∃ req out, requests[i]? = some req ∧ processResp req r = .ok out ∧
            final[i]? = some (some out)) := by
  intro wire
  induction wire with
  | nil =>
    intro slots final hb hnd hlen hrun
    simp only [executeLoop, Option.some.injEq, Except.ok.injEq] at hrun
    subst hrun
    exact ⟨rfl, fun i hi =>
      ⟨fun _ => rfl, fun r hr => absurd hr (List.not_mem_nil r)⟩⟩
  | cons resp rest ih =>
    intro slots final hb hnd hlen hrun
    have hbr := hb resp (List.mem_cons_self _ _)
    have hi0 : goMapLookup idsIndex resp.ID = resp.ID - 1 := by
      rw [hlook, if_pos ⟨hbr.1, hbr.2⟩]
    have hi0lt : resp.ID - 1 < slots.length := by omega
    simp only [List.map_cons, List.nodup_cons] at hnd
    have hbtail : ∀ r ∈ rest, 1 ≤ r.ID ∧ r.ID ≤ requests.length :=
      fun r hr => hb r (List.mem_cons_of_mem _ hr)
    have hreqex : ∃ req, requests[resp.ID - 1]? = some req :=
      ⟨_, List.getElem?_eq_getElem (by omega)⟩
    obtain ⟨req0, hreq0⟩ := hreqex
    rcases herr : resp.Error with _ | e
    · -- success envelope: MakeResult runs and must succeed
      simp only [executeLoop, herr, hi0, hreq0] at hrun
      rcases hmk : req0.makeResult resp.Result with msg | v
      · rw [hmk] at hrun
        simp at hrun
      · rw [hmk] at hrun
        obtain ⟨hfl, hslots⟩ :=
          ih (slots.set (resp.ID - 1) (some (.inr v))) final hbtail hnd.2
            (by rw [List.length_set, hlen]) hrun
        refine ⟨by rw [hfl, List.length_set], fun i hi => ⟨?_, ?_⟩⟩
        · intro hno
          have hne : resp.ID ≠ i + 1 := hno resp (List.mem_cons_self _ _)
          rw [(hslots i hi).1 (fun r hr => hno r (List.mem_cons_of_mem _ hr)),
            List.getElem?_set_ne (by omega)]
        · intro r hr hid
          rcases List.mem_cons.mp hr with hhead | htail
          · subst hhead
            have hieq : r.ID - 1 = i := by omega
            have hrest_no : ∀ r' ∈ rest, r'.ID ≠ i + 1 := by
              intro r' hr' hid'
              exact hnd.1 (by
                rw [hid, ← hid']
                exact List.mem_map_of_mem (fun r => r.ID) hr')
            refine ⟨req0, .inr v, by rw [← hieq]; exact hreq0, ?_, ?_⟩
            · simp [processResp, herr, hmk, Except.map]
            · rw [(hslots i hi).1 hrest_no, ← hieq,
                List.getElem?_set_self hi0lt]
          · exact (hslots i hi).2 r htail hid
    · -- error envelope: a typed error is stored without running MakeResult
      simp only [executeLoop, herr, hi0] at hrun
      rw [if_pos hi0lt] at hrun
      obtain ⟨hfl, hslots⟩ :=
        ih (slots.set (resp.ID - 1) (some (.inl ⟨e.Code, e.Message, e.Data⟩)))
          final hbtail hnd.2 (by rw [List.length_set, hlen]) hrun
      refine ⟨by rw [hfl, List.length_set], fun i hi => ⟨?_, ?_⟩⟩
      · intro hno
        have hne : resp.ID ≠ i + 1 := hno resp (List.mem_cons_self _ _)
        rw [(hslots i hi).1 (fun r hr => hno r (List.mem_cons_of_mem _ hr)),
          List.getElem?_set_ne (by omega)]
      · intro r hr hid
        rcases List.mem_cons.mp hr with hhead | htail
        · subst hhead
          have hieq : r.ID - 1 = i := by omega
          have hrest_no : ∀ r' ∈ rest, r'.ID ≠ i + 1 := by
            intro r' hr' hid'
            exact hnd.1 (by
              rw [hid, ← hid']
              exact List.mem_map_of_mem (fun r => r.ID) hr')
          refine ⟨req0, .inl ⟨e.Code, e.Message, e.Data⟩,
            by rw [← hieq]; exact hreq0, ?_, ?_⟩
          · simp [processResp, herr]
          · rw [(hslots i hi).1 hrest_no, ← hieq,
              List.getElem?_set_self hi0lt]
        · exact (hslots i hi).2 r htail hid

/-- C1: for every batch of `N ≥ 1` typed requests, if the call succeeds the
returned `BatchResult` has length exactly `N`, and for every `i` the entry at
position `i` is the processed result of the response envelope correlated with
the `i`-th submitted request — for every permutation of the envelopes on the
wire, assuming the wire carries exactly the ids assigned to this batch.
(`requests.length < 2^64` reflects the Go bound on slice lengths, under which
the `uint64` id counter cannot wrap within one batch.) -/
theorem executeWithContext_batch_correlation {α : Type} (c : Client)
    (requests : List (Requester α)) (wire : List clientResp)
    (res : BatchResult α)
    (hN : 1 ≤ requests.length) (hsize : requests.length < 2 ^ 64)
    (hperm : (wire.map (fun r => r.ID)).Perm (assignedIDs requests))
    (hok : executeWithContext c requests wire = some (.ok res)) :
    res.Len = requests.length ∧
    ∀ i, i < requests.length → ∃ r req out,
      r ∈ wire ∧ r.ID = i + 1 ∧ requests[i]? = some req ∧
      processResp req r = .ok out ∧ res.At i = some out := by
  have hids : assignedIDs requests = List.range' 1 requests.length := by
    rw [assignedIDs, assignIDs,
      (assignIDsFrom_spec requests 0 0 (by omega)).1]
  rw [hids] at hperm
  have hlook : ∀ k, goMapLookup (assignIDsFrom 0 0 requests).2.2 k =
      if 1 ≤ k ∧ k ≤ requests.length then k - 1 else 0 := fun k => by
    simpa using goMapLookup_assignIDsFrom requests 0 0 k (by omega)
  have hbounds : ∀ r ∈ wire, 1 ≤ r.ID ∧ r.ID ≤ requests.length := by
    intro r hr
    have : r.ID ∈ List.range' 1 requests.length :=
      hperm.mem_iff.mp (List.mem_map_of_mem (fun r => r.ID) hr)
    have := List.mem_range'_1.mp this
    omega
  have hnd : (wire.map (fun r => r.ID)).Nodup :=
    hperm.nodup_iff.mpr (List.nodup_range' 1 requests.length)
  have h22 : (doRequests c requests).2.2 = (assignIDsFrom 0 0 requests).2.2 := rfl
  rw [executeWithContext, h22] at hok
  rcases hx : executeLoop requests (assignIDsFrom 0 0 requests).2.2 wire
      (List.replicate requests.length none) with _ | ex
  · rw [hx] at hok
    exact Option.noConfusion hok
  · rw [hx] at hok
    rcases ex with msg | final
    · exact Except.noConfusion (Option.some.inj hok)
    · replace hok : BatchResult.mk final = res :=
        Except.ok.inj (Option.some.inj hok)
      obtain ⟨hfl, hslots⟩ :=
        executeLoop_char requests (assignIDsFrom 0 0 requests).2.2 hlook wire
          (List.replicate requests.length none) final hbounds hnd
          (List.length_replicate _ _) hx
      constructor
      · rw [← hok, BatchResult.Len, hfl, List.length_replicate]
      · intro i hi
        have hcov : ∃ r, r ∈ wire ∧ r.ID = i + 1 := by
          have : (i + 1) ∈ wire.map (fun r => r.ID) := by
            refine hperm.mem_iff.mpr ?_
            rw [List.mem_range'_1]
            omega
          obtain ⟨r, hr, hid⟩ := List.mem_map.mp this
          exact ⟨r, hr, hid⟩
        obtain ⟨r, hr, hid⟩ := hcov
        obtain ⟨req, out, hreq, hproc, hfin⟩ := (hslots i hi).2 r hr hid
        refine ⟨r, req, out, hr, hid, hreq, hproc, ?_⟩
        rw [← hok, BatchResult.At, List.getD_eq_getElem?_getD, hfin]
        rfl

/-- Witness for C1: the two-request batch answered in reversed wire order
fills slot 0 with the result of request `a` (id 1) and slot 1 with the result
of request `b` (id 2). -/
theorem executeWithContext_batch_correlation_witness :
    (⟨[some (.inr 10), some (.inr 20)]⟩ : BatchResult Nat).Len =
      demoRequests.length ∧
    ∀ i, i < demoRequests.length → ∃ r req out,
      r ∈ demoWire ∧ r.ID = i + 1 ∧ demoRequests[i]? = some req ∧
      processResp req r = .ok out ∧
      (⟨[some (.inr 10), some (.inr 20)]⟩ : BatchResult Nat).At i = some out :=
  executeWithContext_batch_correlation demoClient demoRequests demoWire
    ⟨[some (.inr 10), some (.inr 20)]⟩ (by decide) (by decide) (by decide)
    (by rfl)

end Jsonrpc
